import Mathlib

/-!
Verification of the PX4 vision target estimator core.

Shallow embedding of:
  * src/modules/vision_target_estimator/Orientation/KF_orientation_unified.cpp
    (the orientation Kalman filter: state [yaw, yaw_rate]),
  * the inline helpers of src/modules/vision_target_estimator/Position/VTEPosition.h
    (fusion validity masks, measurement freshness, bias gating, timeout flag),
  * cycle-level glue whose bodies are not part of the provided sources;
    those definitions are marked `Modelled from the spec:` in their doc
    comments and follow the specification text.

Floating point arithmetic is modelled by exact rational arithmetic; the
float constant pi used by matrix::wrap_pi is modelled by a positive
rational parameter `p` (the wrap half-width), so all statements about
angle wrapping are proved for every positive half-width, in particular
the one the code uses.
-/

/-- A 2-vector of rationals, modelling matrix::Vector of floats of size 2
(the orientation filter state [yaw, yaw_rate] and the measurement row). -/
structure Vec2 where
  c0 : ℚ
  c1 : ℚ
deriving DecidableEq, Repr

/-- A 2 by 2 rational matrix, modelling matrix::SquareMatrix of floats. -/
structure Mat2 where
  m00 : ℚ
  m01 : ℚ
  m10 : ℚ
  m11 : ℚ
deriving DecidableEq, Repr

def Vec2.add (a b : Vec2) : Vec2 := ⟨a.c0 + b.c0, a.c1 + b.c1⟩

/-- Componentwise multiplication of a vector by a scalar on the right,
as in the source expression `kalmanGain * _innov`. -/
def Vec2.mulScalar (v : Vec2) (s : ℚ) : Vec2 := ⟨v.c0 * s, v.c1 * s⟩

/-- Componentwise division of a vector by a scalar, as in the source
expression `_state_covariance * _meas_matrix_row_vect / _innov_cov`. -/
def Vec2.divScalar (v : Vec2) (s : ℚ) : Vec2 := ⟨v.c0 / s, v.c1 / s⟩

/-- Dot product, as in `v.transpose() * w` read as a scalar. -/
def Vec2.dot (a b : Vec2) : ℚ := a.c0 * b.c0 + a.c1 * b.c1

def Mat2.transpose (M : Mat2) : Mat2 := ⟨M.m00, M.m10, M.m01, M.m11⟩

def Mat2.mul (A B : Mat2) : Mat2 :=
  ⟨A.m00 * B.m00 + A.m01 * B.m10, A.m00 * B.m01 + A.m01 * B.m11,
   A.m10 * B.m00 + A.m11 * B.m10, A.m10 * B.m01 + A.m11 * B.m11⟩

def Mat2.sub (A B : Mat2) : Mat2 :=
  ⟨A.m00 - B.m00, A.m01 - B.m01, A.m10 - B.m10, A.m11 - B.m11⟩

def Mat2.mulVec (M : Mat2) (v : Vec2) : Vec2 :=
  ⟨M.m00 * v.c0 + M.m01 * v.c1, M.m10 * v.c0 + M.m11 * v.c1⟩

/-- Outer product a * b.transpose(), a column 2-vector times a row
2-vector, as in `kalmanGain * _meas_matrix_row_vect.transpose()`. -/
def Mat2.outer (a b : Vec2) : Mat2 :=
  ⟨a.c0 * b.c0, a.c0 * b.c1, a.c1 * b.c0, a.c1 * b.c1⟩

def Mat2.idMat : Mat2 := ⟨1, 0, 0, 1⟩

def Mat2.zero : Mat2 := ⟨0, 0, 0, 0⟩

/-- Modelled from the spec: matrix::inv for the 2 by 2 case (the header
defining it is not among the provided sources); the usual adjugate over
determinant formula, exact on every matrix with nonzero determinant.
`syncState` only ever applies it to the state transition matrix, whose
determinant is 1. -/
def Mat2.inv2 (M : Mat2) : Mat2 :=
  let d := M.m00 * M.m11 - M.m01 * M.m10
  ⟨M.m11 / d, -M.m01 / d, -M.m10 / d, M.m00 / d⟩

/-- A covariance matrix is symmetric when its two off-diagonal entries
agree; for 2 by 2 matrices this is equivalent to `M.transpose = M`. -/
def Mat2.symm (M : Mat2) : Prop := M.m01 = M.m10

instance (M : Mat2) : Decidable (Mat2.symm M) := by
  unfold Mat2.symm; infer_instance

/-- Modelled from the spec: matrix::wrap_pi, the angle wrap applied to
every state component (its implementation is not among the provided
sources; the spec states angular components are kept wrapped to the
half-open interval from -pi exclusive to pi inclusive). `p` models the
float constant pi: `wrap_pi p x` is the unique representative of `x`
modulo `2*p` lying in that interval. -/
def wrap_pi (p x : ℚ) : ℚ := x - 2 * p * (⌈(x - p) / (2 * p)⌉ : ℤ)

theorem wrap_pi_mem (p x : ℚ) (hp : 0 < p) :
    -p < wrap_pi p x ∧ wrap_pi p x ≤ p := by
  unfold wrap_pi
  have h2p : (0 : ℚ) < 2 * p := by linarith
  have hle : (x - p) / (2 * p) ≤ (⌈(x - p) / (2 * p)⌉ : ℚ) := Int.le_ceil _
  have hlt : (⌈(x - p) / (2 * p)⌉ : ℚ) < (x - p) / (2 * p) + 1 :=
    Int.ceil_lt_add_one _
  have h1 : x - p ≤ (⌈(x - p) / (2 * p)⌉ : ℚ) * (2 * p) :=
    (div_le_iff₀ h2p).mp hle
  have h2 : (⌈(x - p) / (2 * p)⌉ : ℚ) * (2 * p) < x - p + (2 * p) := by
    have := (lt_div_iff₀ h2p).mp (by linarith : (⌈(x - p) / (2 * p)⌉ : ℚ) - 1 < (x - p) / (2 * p))
    linarith
  constructor <;> nlinarith

theorem wrap_pi_eq_self (p x : ℚ) (hp : 0 < p) (h1 : -p < x) (h2 : x ≤ p) :
    wrap_pi p x = x := by
  unfold wrap_pi
  have h2p : (0 : ℚ) < 2 * p := by linarith
  have hz : ⌈(x - p) / (2 * p)⌉ = 0 := by
    rw [Int.ceil_eq_zero_iff]
    constructor
    · show (-1 : ℚ) < (x - p) / (2 * p)
      rw [lt_div_iff₀ h2p]; linarith
    · show (x - p) / (2 * p) ≤ 0
      apply div_nonpos_of_nonpos_of_nonneg <;> linarith
  rw [hz]
  push_cast
  ring

theorem wrap_pi_sub_period (p x : ℚ) (k : ℤ) (hp : 0 < p) :
    wrap_pi p (x - 2 * p * k) = wrap_pi p x := by
  unfold wrap_pi
  have h2p : (2 * p : ℚ) ≠ 0 := by positivity
  have harg : (x - 2 * p * k - p) / (2 * p) = (x - p) / (2 * p) + (-k : ℤ) := by
    push_cast
    field_simp
    ring
  rw [harg, Int.ceil_add_int]
  push_cast
  ring

/-!
Embedding of KF_orientation_unified.cpp. The filter owns a state vector
`_state` = [yaw, yaw_rate], a covariance `_state_covariance`, a synced
state `_sync_state`, the observation row `_meas_matrix_row_vect`, the
stored innovation `_innov` and innovation covariance `_innov_cov`, and
the configured NIS threshold `_nis_threshold`.
-/

structure KfState where
  state : Vec2
  stateCovariance : Mat2
  syncStateVec : Vec2
  measMatrixRowVect : Vec2
  innov : ℚ
  innovCov : ℚ
  nisThreshold : ℚ
deriving DecidableEq, Repr

/-- Modelled from the spec: getPhi, the state transition matrix supplier
(defined in the filter header, which is not among the provided sources).
For orientation, yaw propagates via yaw += yaw_rate * dt and yaw_rate is
constant, so Phi(dt) = [[1, dt], [0, 1]]. -/
def getPhi (dt : ℚ) : Mat2 := ⟨1, dt, 0, 1⟩

/-- KF_orientation_unified::predictState: _state := Phi(dt) * _state,
then every state component is rewrapped with wrap_pi. -/
def KfState.predictState (p dt : ℚ) (kf : KfState) : KfState :=
  let s := (getPhi dt).mulVec kf.state
  { kf with state := ⟨wrap_pi p s.c0, wrap_pi p s.c1⟩ }

/-- KF_orientation_unified::predictCov:
_state_covariance := Phi(dt) * _state_covariance * Phi(dt).transpose(). -/
def KfState.predictCov (dt : ℚ) (kf : KfState) : KfState :=
  let phi := getPhi dt
  { kf with stateCovariance := (phi.mul kf.stateCovariance).mul phi.transpose }

/-- KF_orientation_unified::update: returns false leaving every field
unchanged if the absolute stored innovation covariance is below 1e-6 or
the normalized innovation squared beta = _innov / _innov_cov * _innov
exceeds _nis_threshold; otherwise applies the Kalman correction to the
state (with every component rewrapped) and the covariance and returns true. -/
def KfState.update (p : ℚ) (kf : KfState) : Bool × KfState :=
  if |kf.innovCov| < 1 / 1000000 then (false, kf)
  else
    -- beta = _innov / _innov_cov * _innov, inlined into its only use
    if kf.innov / kf.innovCov * kf.innov > kf.nisThreshold then (false, kf)
    else
      let kalmanGain := (kf.stateCovariance.mulVec kf.measMatrixRowVect).divScalar kf.innovCov
      let st := kf.state.add (kalmanGain.mulScalar kf.innov)
      let stWrapped : Vec2 := ⟨wrap_pi p st.c0, wrap_pi p st.c1⟩
      let covNew := kf.stateCovariance.sub
        ((Mat2.outer kalmanGain kf.measMatrixRowVect).mul kf.stateCovariance)
      (true, { kf with state := stWrapped, stateCovariance := covNew })

/-- KF_orientation_unified::syncState:
_sync_state := inv(Phi(dt)) * _state, every component rewrapped. -/
def KfState.syncState (p dt : ℚ) (kf : KfState) : KfState :=
  let s := (Mat2.inv2 (getPhi dt)).mulVec kf.state
  { kf with syncStateVec := ⟨wrap_pi p s.c0, wrap_pi p s.c1⟩ }

/-- KF_orientation_unified::computeInnovCov: stores and returns
_innov_cov = H.transpose() * P * H + meas_unc (a scalar for this filter
since the observation is a single row). -/
def KfState.computeInnovCov (measUnc : ℚ) (kf : KfState) : ℚ × KfState :=
  let s := kf.measMatrixRowVect.dot (kf.stateCovariance.mulVec kf.measMatrixRowVect) + measUnc
  (s, { kf with innovCov := s })

/-- KF_orientation_unified::computeInnov: stores and returns
_innov = meas - H.transpose() * _sync_state. -/
def KfState.computeInnov (meas : ℚ) (kf : KfState) : ℚ × KfState :=
  let iv := meas - kf.measMatrixRowVect.dot kf.syncStateVec
  (iv, { kf with innov := iv })

/-- The state and covariance written by the success branch of update():
Kalman gain K = P * H / S, state + K * innovation componentwise
rewrapped, and covariance P - K * H.transpose() * P. -/
def KfState.updateSuccessResult (p : ℚ) (kf : KfState) : KfState :=
  let kalmanGain := (kf.stateCovariance.mulVec kf.measMatrixRowVect).divScalar kf.innovCov
  let st := kf.state.add (kalmanGain.mulScalar kf.innov)
  { kf with
    state := ⟨wrap_pi p st.c0, wrap_pi p st.c1⟩,
    stateCovariance := kf.stateCovariance.sub
      ((Mat2.outer kalmanGain kf.measMatrixRowVect).mul kf.stateCovariance) }

/-!
Embedding of the inline helpers of VTEPosition.h. Bit masks are modelled
as natural numbers with the bit constants of the C++ enums; hrt_abstime
values are 64-bit unsigned microsecond counts, modelled as naturals with
the subtraction performed modulo 2^64 as in the source.
-/

/-- A 3-vector of rationals, modelling matrix::Vector3f. -/
structure Vec3 where
  x : ℚ
  y : ℚ
  z : ℚ
deriving DecidableEq, Repr

def FUSE_TARGET_GPS_POS : Nat := 1
def FUSE_UAV_GPS_VEL : Nat := 2
def FUSE_EXT_VIS_POS : Nat := 4
def FUSE_MISSION_POS : Nat := 8
def FUSE_TARGET_GPS_VEL : Nat := 16
def FUSE_UWB : Nat := 32

/-- VTEPosition::measurement_valid_TIMEOUT_US = 1_s in microseconds. -/
def measurement_valid_TIMEOUT_US : Nat := 1000000

/-- Unsigned 64-bit difference now - ts, as computed on hrt_abstime. -/
def elapsedUs (now ts : Nat) : Nat :=
  (2 ^ 64 + now % 2 ^ 64 - ts % 2 ^ 64) % 2 ^ 64

/-- VTEPosition::_is_meas_valid: the measurement timestamp is valid when
hrt_absolute_time() - time_stamp < measurement_valid_TIMEOUT_US. -/
def isMeasValid (now ts : Nat) : Bool :=
  elapsedUs now ts < measurement_valid_TIMEOUT_US

/-- VTEPosition::_hasNewNonGpsPositionSensorData:
(mask & FUSE_EXT_VIS_POS) || (mask & FUSE_UWB). -/
def hasNewNonGpsPositionSensorData (mask : Nat) : Bool :=
  decide (mask &&& FUSE_EXT_VIS_POS ≠ 0) || decide (mask &&& FUSE_UWB ≠ 0)

/-- VTEPosition::_hasNewPositionSensorData:
mask & (FUSE_MISSION_POS | FUSE_TARGET_GPS_POS | FUSE_EXT_VIS_POS).
Note the source does not include FUSE_UWB here. -/
def hasNewPositionSensorData (mask : Nat) : Bool :=
  decide (mask &&& (FUSE_MISSION_POS ||| FUSE_TARGET_GPS_POS ||| FUSE_EXT_VIS_POS) ≠ 0)

/-- VTEPosition::_should_set_bias: estimate the GNSS bias only when the
GNSS relative position measurement is fresh and a secondary (non-GNSS)
position source is available this cycle. `now` models
hrt_absolute_time() and `gnssTs` models _pos_rel_gnss.timestamp. -/
def shouldSetBias (now gnssTs mask : Nat) : Bool :=
  isMeasValid now gnssTs && hasNewNonGpsPositionSensorData mask

/-- Modelled from the spec: the bias maintenance step of the fusion
cycle (VTEPosition::updateBias, whose body is not among the provided
sources): the bias state takes the freshly computed value `candidate`
when _should_set_bias holds and is otherwise frozen at its last value.
The gate _should_set_bias is taken from the source header. -/
def updateBiasStep (now gnssTs mask : Nat) (candidate bias : Vec3) : Vec3 :=
  if shouldSetBias now gnssTs mask then candidate else bias

/-- The position observations available to initialization, one candidate
initial position per position source (the meas_xyz of each observation
in the targetObsPos array). -/
structure ObsSet where
  missionPos : Vec3
  targetGpsPos : Vec3
  visionPos : Vec3
  uwbPos : Vec3
deriving DecidableEq, Repr

/-- Modelled from the spec: VTEPosition::getPosInit (body not among the
provided sources): the initial position estimate comes from the highest
priority valid position source, priority order mission position, target
GNSS position, vision, UWB, first available wins, zero otherwise. -/
def getPosInit (mask : Nat) (obs : ObsSet) : Vec3 :=
  if mask &&& FUSE_MISSION_POS ≠ 0 then obs.missionPos
  else if mask &&& FUSE_TARGET_GPS_POS ≠ 0 then obs.targetGpsPos
  else if mask &&& FUSE_EXT_VIS_POS ≠ 0 then obs.visionPos
  else if mask &&& FUSE_UWB ≠ 0 then obs.uwbPos
  else ⟨0, 0, 0⟩

/-- The initialization-relevant state of VTEPosition: the
_estimator_initialized flag and the three per-axis filters, modelled by
their seeded position (none while uninitialized). -/
structure VtePosEstimator where
  estimatorInit : Bool
  filterX : Option ℚ
  filterY : Option ℚ
  filterZ : Option ℚ
deriving DecidableEq, Repr

/-- Modelled from the spec: the initialization path of the fusion cycle
(VTEPosition::initializeEstimator and its caller, bodies not among the
provided sources): when no axis filter is initialized yet, the cycle
initializes all three axis filters in one atomic step from the position
selected by getPosInit, provided new position sensor data is available;
the availability gate _hasNewPositionSensorData is taken from the source
header. When the gate fails the estimator stays uninitialized. -/
def initStep (mask : Nat) (obs : ObsSet) (est : VtePosEstimator) : VtePosEstimator :=
  if est.estimatorInit then est
  else if hasNewPositionSensorData mask then
    let posInit := getPosInit mask obs
    ⟨true, some posInit.x, some posInit.y, some posInit.z⟩
  else est

/-- The timeout-relevant state of VTEPosition: _last_update (timestamp
of the last successful filter update) and the _has_timed_out flag read
back by VTEPosition::has_timed_out. -/
structure TimeoutState where
  lastUpdate : Nat
  hasTimedOut : Bool
deriving DecidableEq, Repr

/-- VTEPosition::has_timed_out accessor. -/
def TimeoutState.has_timed_out (st : TimeoutState) : Bool := st.hasTimedOut

/-- Modelled from the spec: the timeout check of the cycle (performed in
VTEPosition::update, body not among the provided sources): when the
elapsed time since _last_update exceeds the configured horizon
(_vte_TIMEOUT_US) the _has_timed_out flag is set; the cycle never clears
it. -/
def checkTimeout (timeoutUs now : Nat) (st : TimeoutState) : TimeoutState :=
  if elapsedUs now st.lastUpdate > timeoutUs then { st with hasTimedOut := true } else st

/-- Modelled from the spec: one estimator cycle as seen by the timeout
state machine: _last_update is refreshed only when at least one fusion
succeeded this cycle, then the timeout condition is evaluated. -/
def cycleStep (timeoutUs : Nat) (st : TimeoutState) (c : Nat × Bool) : TimeoutState :=
  checkTimeout timeoutUs c.1 (if c.2 then { st with lastUpdate := c.1 } else st)

/-- A whole sequence of cycles, each given by its wall-clock time and
whether some fusion succeeded in it. -/
def runCycles (timeoutUs : Nat) (l : List (Nat × Bool)) (st : TimeoutState) : TimeoutState :=
  l.foldl (cycleStep timeoutUs) st

/-- Modelled from the spec: VTEPosition::resetFilter (body not among the
provided sources): the explicit external reset that reinitializes the
estimator and clears the terminal timed-out flag. -/
def resetFilterTimeout (now : Nat) : TimeoutState := ⟨now, false⟩

/-!
Helper lemmas: branch analysis of update() and concrete evaluation of
the ceiling inside wrap_pi.
-/

theorem ceil_eval (r : ℚ) (z : ℤ) (h1 : (z : ℚ) - 1 < r) (h2 : r ≤ (z : ℚ)) :
    ⌈r⌉ = z := Int.ceil_eq_iff.mpr ⟨h1, h2⟩

theorem wrap_pi_eval (p x w : ℚ) (k : ℤ)
    (hk1 : (k : ℚ) - 1 < (x - p) / (2 * p)) (hk2 : (x - p) / (2 * p) ≤ (k : ℚ))
    (hw : x - 2 * p * (k : ℚ) = w) : wrap_pi p x = w := by
  unfold wrap_pi
  rw [ceil_eval _ k hk1 hk2]
  exact hw

theorem update_eq_fail_low (p : ℚ) (kf : KfState)
    (h : |kf.innovCov| < 1 / 1000000) : kf.update p = (false, kf) := by
  unfold KfState.update
  rw [if_pos h]

theorem update_eq_fail_nis (p : ℚ) (kf : KfState)
    (h1 : ¬ |kf.innovCov| < 1 / 1000000)
    (h2 : kf.innov / kf.innovCov * kf.innov > kf.nisThreshold) :
    kf.update p = (false, kf) := by
  unfold KfState.update
  rw [if_neg h1, if_pos h2]

theorem update_eq_success (p : ℚ) (kf : KfState)
    (h1 : ¬ |kf.innovCov| < 1 / 1000000)
    (h2 : ¬ kf.innov / kf.innovCov * kf.innov > kf.nisThreshold) :
    kf.update p = (true, kf.updateSuccessResult p) := by
  unfold KfState.update
  rw [if_neg h1, if_neg h2]
  rfl

/-- C1: for every filter state, update() returns false and leaves every
field of the filter unchanged (the returned filter is the input filter)
whenever the stored innovation covariance S has absolute value below
1e-6, and also whenever the normalized innovation squared
beta = innov^2 / S exceeds the configured NIS threshold. -/
theorem claim_C1_update_failure_unchanged (p : ℚ) (kf : KfState)
    (h : |kf.innovCov| < 1 / 1000000 ∨
      kf.innov / kf.innovCov * kf.innov > kf.nisThreshold) :
    kf.update p = (false, kf) := by
  rcases h with h | h
  · exact update_eq_fail_low p kf h
  · by_cases h1 : |kf.innovCov| < 1 / 1000000
    · exact update_eq_fail_low p kf h1
    · exact update_eq_fail_nis p kf h1 h

/-- Concrete filter state with a zero stored innovation covariance,
used to witness the zero-division guard. -/
def kfC1w : KfState := ⟨⟨0, 0⟩, Mat2.idMat, ⟨0, 0⟩, ⟨1, 0⟩, 1, 0, 1⟩

theorem claim_C1_witness : KfState.update 1 kfC1w = (false, kfC1w) :=
  claim_C1_update_failure_unchanged 1 kfC1w (Or.inl (by norm_num [kfC1w]))

/-- C2: whenever the stored innovation covariance S has absolute value
at least 1e-6 and beta = innov^2 / S does not exceed the configured NIS
threshold, update() returns true and applies exactly the Kalman
correction: gain K = covariance * observationRow / S, state replaced by
state + K * innovation with each component rewrapped, covariance
replaced by covariance - K * observationRow^T * covariance. -/
theorem claim_C2_update_success_formula (p : ℚ) (kf : KfState)
    (h1 : 1 / 1000000 ≤ |kf.innovCov|)
    (h2 : kf.innov / kf.innovCov * kf.innov ≤ kf.nisThreshold) :
    kf.update p = (true, kf.updateSuccessResult p) :=
  update_eq_success p kf (not_lt.mpr h1) (not_lt.mpr h2)

/-- Concrete well-conditioned filter state (S = 1, beta = 1 below the
threshold 2) witnessing the success branch. -/
def kfC2w : KfState := ⟨⟨0, 0⟩, Mat2.idMat, ⟨0, 0⟩, ⟨1, 0⟩, 1, 1, 2⟩

theorem claim_C2_witness :
    KfState.update 1 kfC2w = (true, KfState.updateSuccessResult 1 kfC2w) :=
  claim_C2_update_success_formula 1 kfC2w (by norm_num [kfC2w]) (by norm_num [kfC2w])

/-- C10: when the stored innovation covariance S is negative with
absolute value at least 1e-6 and the configured NIS threshold is
nonnegative, update() always returns true: the zero-division guard only
checks the magnitude of S, the gate beta = innov^2 / S is nonpositive
and thus never exceeds the threshold, and the correction is applied with
the Kalman gain divided by the negative S. -/
theorem claim_C10_negative_S_accepted (p : ℚ) (kf : KfState)
    (hthr : 0 ≤ kf.nisThreshold) (hneg : kf.innovCov < 0)
    (hmag : 1 / 1000000 ≤ |kf.innovCov|) :
    kf.update p = (true, kf.updateSuccessResult p) := by
  apply update_eq_success p kf (not_lt.mpr hmag)
  rw [not_lt]
  have hb : kf.innov / kf.innovCov * kf.innov = kf.innov * kf.innov / kf.innovCov := by
    ring
  rw [hb]
  have : kf.innov * kf.innov / kf.innovCov ≤ 0 :=
    div_nonpos_of_nonneg_of_nonpos (mul_self_nonneg _) (le_of_lt hneg)
  linarith

/-- Concrete filter state with a negative stored innovation covariance
of magnitude 1, witnessing that the gate accepts it. -/
def kfC10w : KfState := ⟨⟨0, 0⟩, Mat2.idMat, ⟨0, 0⟩, ⟨1, 0⟩, 1, -1, 0⟩

theorem claim_C10_witness :
    KfState.update 1 kfC10w = (true, KfState.updateSuccessResult 1 kfC10w) :=
  claim_C10_negative_S_accepted 1 kfC10w (by norm_num [kfC10w])
    (by norm_num [kfC10w]) (by norm_num [kfC10w])

/-!
Covariance symmetry through arbitrary predict/update sequences (C4).
-/

theorem transpose_eq_self_iff (M : Mat2) : M.transpose = M ↔ M.symm := by
  obtain ⟨a, b, c, d⟩ := M
  constructor
  · intro h
    have hm : Mat2.m10 (Mat2.transpose ⟨a, b, c, d⟩) = Mat2.m10 ⟨a, b, c, d⟩ :=
      congrArg Mat2.m10 h
    exact hm
  · intro h
    have hb : b = c := h
    subst hb
    rfl

theorem predictCov_preserves_symm (dt : ℚ) (kf : KfState)
    (h : kf.stateCovariance.symm) : (kf.predictCov dt).stateCovariance.symm := by
  obtain ⟨st, ⟨a, b, c, d⟩, sy, hr, iv, ic, th⟩ := kf
  simp only [KfState.predictCov, getPhi, Mat2.mul, Mat2.transpose, Mat2.symm] at *
  linarith

theorem updateSuccessResult_preserves_symm (p : ℚ) (kf : KfState)
    (h : kf.stateCovariance.symm) : (kf.updateSuccessResult p).stateCovariance.symm := by
  obtain ⟨st, ⟨a, b, c, d⟩, sy, ⟨h0, h1⟩, iv, ic, th⟩ := kf
  simp only [KfState.updateSuccessResult, Mat2.symm, Mat2.sub, Mat2.mul, Mat2.outer,
    Mat2.mulVec, Vec2.divScalar, Vec2.add, Vec2.mulScalar] at *
  subst h
  ring

theorem update_preserves_symm (p : ℚ) (kf : KfState)
    (h : kf.stateCovariance.symm) : ((kf.update p).2).stateCovariance.symm := by
  by_cases h1 : |kf.innovCov| < 1 / 1000000
  · rw [update_eq_fail_low p kf h1]
    exact h
  · by_cases h2 : kf.innov / kf.innovCov * kf.innov > kf.nisThreshold
    · rw [update_eq_fail_nis p kf h1 h2]
      exact h
    · rw [update_eq_success p kf h1 h2]
      exact updateSuccessResult_preserves_symm p kf h

/-- One step of the per-cycle use of the filter, as seen by its
covariance: a covariance prediction, or a fusion attempt (update) run in
an arbitrary measurement context — observation row, stored innovation
and stored innovation covariance set to arbitrary values, covering every
possible outcome of computeInnov and computeInnovCov. -/
inductive KfOp where
  | predCov (dt : ℚ)
  | fuse (hrow : Vec2) (iv ic : ℚ)

def applyOp (p : ℚ) (kf : KfState) : KfOp → KfState
  | KfOp.predCov dt => kf.predictCov dt
  | KfOp.fuse hrow iv ic =>
      (({ kf with measMatrixRowVect := hrow, innov := iv, innovCov := ic } : KfState).update p).2

def runOps (p : ℚ) (l : List KfOp) (kf : KfState) : KfState :=
  l.foldl (applyOp p) kf

theorem applyOp_preserves_symm (p : ℚ) (kf : KfState) (op : KfOp)
    (h : kf.stateCovariance.symm) : (applyOp p kf op).stateCovariance.symm := by
  cases op with
  | predCov dt => exact predictCov_preserves_symm dt kf h
  | fuse hrow iv ic => exact update_preserves_symm p _ h

/-- C4: the covariance matrix stays equal to its own transpose across
every sequence of covariance predictions and update calls (successful
or gated away), for every initial symmetric covariance: the update
formula is an equivalent symmetric construction, so no explicit
symmetrization is needed in exact arithmetic. -/
theorem claim_C4_covariance_symmetry (p : ℚ) (l : List KfOp) (kf : KfState)
    (h : kf.stateCovariance.transpose = kf.stateCovariance) :
    (runOps p l kf).stateCovariance.transpose = (runOps p l kf).stateCovariance := by
  rw [transpose_eq_self_iff] at h ⊢
  induction l generalizing kf with
  | nil => exact h
  | cons op t ih =>
      exact ih (applyOp p kf op) (applyOp_preserves_symm p kf op h)

/-- Concrete initial filter with identity covariance, witnessing
symmetry through a three-operation sequence. -/
def kfC4w : KfState := ⟨⟨0, 0⟩, Mat2.idMat, ⟨0, 0⟩, ⟨0, 0⟩, 0, 0, 0⟩

theorem claim_C4_witness :
    (runOps 1 [KfOp.predCov 1, KfOp.fuse ⟨1, 0⟩ 1 1, KfOp.predCov 2] kfC4w).stateCovariance.transpose
      = (runOps 1 [KfOp.predCov 1, KfOp.fuse ⟨1, 0⟩ 1 1, KfOp.predCov 2] kfC4w).stateCovariance :=
  claim_C4_covariance_symmetry 1 _ kfC4w rfl

/-!
Shape of the state written by predictState and syncState, and the
round-trip property (C5), wrapping invariant (C6), covariance
prediction contract (C9).
-/

theorem predictState_state (p dt : ℚ) (kf : KfState) :
    (kf.predictState p dt).state =
      ⟨wrap_pi p (kf.state.c0 + dt * kf.state.c1), wrap_pi p kf.state.c1⟩ := by
  simp only [KfState.predictState, getPhi, Mat2.mulVec, Vec2.mk.injEq]
  constructor <;> · congr 1; ring

theorem syncState_vec (p dt : ℚ) (kf : KfState) :
    (kf.syncState p dt).syncStateVec =
      ⟨wrap_pi p (kf.state.c0 - dt * kf.state.c1), wrap_pi p kf.state.c1⟩ := by
  simp only [KfState.syncState, getPhi, Mat2.inv2, Mat2.mulVec, Vec2.mk.injEq]
  constructor <;> · congr 1; field_simp; try ring

/-- C5 counterexample input: a filter state whose yaw rate 3 lies
outside the wrap interval for half-width 1. -/
def kfC5c : KfState := ⟨⟨0, 3⟩, Mat2.idMat, ⟨0, 0⟩, ⟨0, 0⟩, 0, 0, 0⟩

/-- C5 is false as stated over every filter state: with wrap half-width
1, dt = 1/2 ≥ 0 and state (0, 3), resynchronize after predictState
returns yaw 1, which differs from the pre-prediction yaw 0 and from its
wrapped value 0, so the round trip fails even up to angle wrapping. -/
theorem claim_C5_counterexample :
    (0 : ℚ) < 1 ∧ (0 : ℚ) ≤ 1 / 2 ∧
    ((kfC5c.predictState 1 (1 / 2)).syncState 1 (1 / 2)).syncStateVec.c0 = 1 ∧
    kfC5c.state.c0 = 0 ∧ wrap_pi 1 kfC5c.state.c0 = 0 ∧ (1 : ℚ) ≠ 0 := by
  have e1 : wrap_pi 1 (3 / 2 : ℚ) = -1 / 2 :=
    wrap_pi_eval 1 (3 / 2) (-1 / 2) 1 (by norm_num) (by norm_num) (by norm_num)
  have e2 : wrap_pi 1 (3 : ℚ) = 1 :=
    wrap_pi_eval 1 3 1 1 (by norm_num) (by norm_num) (by norm_num)
  have e3 : wrap_pi 1 (-1 : ℚ) = 1 :=
    wrap_pi_eval 1 (-1) 1 (-1) (by norm_num) (by norm_num) (by norm_num)
  have e0 : wrap_pi 1 (0 : ℚ) = 0 := wrap_pi_eq_self 1 0 (by norm_num) (by norm_num) (by norm_num)
  refine ⟨by norm_num, by norm_num, ?_, rfl, ?_, by norm_num⟩
  · rw [syncState_vec, predictState_state]
    show wrap_pi 1 (wrap_pi 1 (kfC5c.state.c0 + 1 / 2 * kfC5c.state.c1) -
      1 / 2 * wrap_pi 1 kfC5c.state.c1) = 1
    have hc0 : kfC5c.state.c0 = 0 := rfl
    have hc1 : kfC5c.state.c1 = 3 := rfl
    rw [hc0, hc1]
    rw [show (0 : ℚ) + 1 / 2 * 3 = 3 / 2 by norm_num, e1, e2]
    rw [show (-1 / 2 : ℚ) - 1 / 2 * 1 = -1 by norm_num, e3]
  · show wrap_pi 1 (0 : ℚ) = 0
    exact e0

/-- C5 amended: the state transition matrix is invertible for every dt
(its product with its inverse is the identity in both orders, and
Phi(0) is the identity), and resynchronize after predictState with the
same dt recovers the pre-prediction state exactly for every filter
state already satisfying the maintained wrapping invariant, i.e. with
both components in the wrap interval. -/
theorem claim_C5_amended_roundtrip (p dt : ℚ) (kf : KfState) (hp : 0 < p) (hdt : 0 ≤ dt)
    (h0 : -p < kf.state.c0 ∧ kf.state.c0 ≤ p) (h1 : -p < kf.state.c1 ∧ kf.state.c1 ≤ p) :
    (getPhi dt).mul (Mat2.inv2 (getPhi dt)) = Mat2.idMat ∧
    (Mat2.inv2 (getPhi dt)).mul (getPhi dt) = Mat2.idMat ∧
    getPhi 0 = Mat2.idMat ∧
    ((kf.predictState p dt).syncState p dt).syncStateVec = kf.state := by
  have hr : wrap_pi p kf.state.c1 = kf.state.c1 := wrap_pi_eq_self p _ hp h1.1 h1.2
  refine ⟨?_, ?_, rfl, ?_⟩
  · simp only [getPhi, Mat2.inv2, Mat2.mul, Mat2.idMat, Mat2.mk.injEq]
    norm_num
  · simp only [getPhi, Mat2.inv2, Mat2.mul, Mat2.idMat, Mat2.mk.injEq]
    norm_num
  · rw [syncState_vec, predictState_state]
    dsimp only
    rw [hr]
    have hw : wrap_pi p (kf.state.c0 + dt * kf.state.c1) =
        kf.state.c0 + dt * kf.state.c1 -
          2 * p * ((⌈(kf.state.c0 + dt * kf.state.c1 - p) / (2 * p)⌉ : ℤ) : ℚ) := rfl
    have harg : wrap_pi p (kf.state.c0 + dt * kf.state.c1) - dt * kf.state.c1 =
        kf.state.c0 - 2 * p * ((⌈(kf.state.c0 + dt * kf.state.c1 - p) / (2 * p)⌉ : ℤ) : ℚ) := by
      rw [hw]; ring
    rw [harg, wrap_pi_sub_period _ _ _ hp, wrap_pi_eq_self p _ hp h0.1 h0.2, hr]

/-- C5 witness input: both components inside the wrap interval for
half-width 4. -/
def kfC5w : KfState := ⟨⟨1, 2⟩, Mat2.idMat, ⟨0, 0⟩, ⟨0, 0⟩, 0, 0, 0⟩

theorem claim_C5_witness :
    ((kfC5w.predictState 4 1).syncState 4 1).syncStateVec = kfC5w.state :=
  (claim_C5_amended_roundtrip 4 1 kfC5w (by norm_num) (by norm_num)
    (by norm_num [kfC5w]) (by norm_num [kfC5w])).2.2.2

/-- C6: for every positive wrap half-width, every filter state and
every dt ≥ 0, both (angular) state components produced by predictState,
by resynchronization (syncState), and by a successful update lie in the
half-open wrap interval, excluding -p and including p. -/
theorem claim_C6_wrapped_components (p dt : ℚ) (kf : KfState) (hp : 0 < p) (hdt : 0 ≤ dt) :
    ((-p < (kf.predictState p dt).state.c0 ∧ (kf.predictState p dt).state.c0 ≤ p) ∧
      (-p < (kf.predictState p dt).state.c1 ∧ (kf.predictState p dt).state.c1 ≤ p)) ∧
    ((-p < (kf.syncState p dt).syncStateVec.c0 ∧ (kf.syncState p dt).syncStateVec.c0 ≤ p) ∧
      (-p < (kf.syncState p dt).syncStateVec.c1 ∧ (kf.syncState p dt).syncStateVec.c1 ≤ p)) ∧
    ((kf.update p).1 = true →
      ((-p < (kf.update p).2.state.c0 ∧ (kf.update p).2.state.c0 ≤ p) ∧
        (-p < (kf.update p).2.state.c1 ∧ (kf.update p).2.state.c1 ≤ p))) := by
  refine ⟨?_, ?_, ?_⟩
  · rw [predictState_state]
    exact ⟨wrap_pi_mem p _ hp, wrap_pi_mem p _ hp⟩
  · rw [syncState_vec]
    exact ⟨wrap_pi_mem p _ hp, wrap_pi_mem p _ hp⟩
  · intro hsucc
    by_cases h1 : |kf.innovCov| < 1 / 1000000
    · rw [update_eq_fail_low p kf h1] at hsucc
      exact absurd hsucc (by simp)
    · by_cases h2 : kf.innov / kf.innovCov * kf.innov > kf.nisThreshold
      · rw [update_eq_fail_nis p kf h1 h2] at hsucc
        exact absurd hsucc (by simp)
      · rw [update_eq_success p kf h1 h2]
        exact ⟨wrap_pi_mem p _ hp, wrap_pi_mem p _ hp⟩

/-- C6 witness input. -/
def kfC6w : KfState := ⟨⟨10, -7⟩, Mat2.idMat, ⟨0, 0⟩, ⟨1, 0⟩, 1, 1, 2⟩

theorem claim_C6_witness :
    (-4 < (kfC6w.predictState 4 1).state.c0 ∧ (kfC6w.predictState 4 1).state.c0 ≤ 4) ∧
    (-4 < (kfC6w.predictState 4 1).state.c1 ∧ (kfC6w.predictState 4 1).state.c1 ≤ 4) :=
  (claim_C6_wrapped_components 4 1 kfC6w (by norm_num) (by norm_num)).1

/-- C9: predictCovariance sets the covariance to exactly
Phi(dt) * P * Phi(dt)^T with no process-noise term added: the direct
formula holds, composing two predictions equals one prediction over the
summed time (nothing is accumulated beyond what the transition matrix
induces), a zero covariance stays exactly zero, and the state vector is
untouched. -/
theorem claim_C9_predictCov_no_noise (dt1 dt2 : ℚ) (kf : KfState) :
    (kf.predictCov dt1).stateCovariance
        = ((getPhi dt1).mul kf.stateCovariance).mul (getPhi dt1).transpose ∧
    (kf.predictCov dt1).predictCov dt2 = kf.predictCov (dt1 + dt2) ∧
    (kf.stateCovariance = Mat2.zero → (kf.predictCov dt1).stateCovariance = Mat2.zero) ∧
    (kf.predictCov dt1).state = kf.state := by
  refine ⟨rfl, ?_, ?_, rfl⟩
  · obtain ⟨st, ⟨a, b, c, d⟩, sy, hr, iv, ic, th⟩ := kf
    simp only [KfState.predictCov]
    congr 1
    simp only [getPhi, Mat2.mul, Mat2.transpose]
    congr 1 <;> ring
  · intro h
    show ((getPhi dt1).mul kf.stateCovariance).mul (getPhi dt1).transpose = Mat2.zero
    rw [h]
    simp only [getPhi, Mat2.mul, Mat2.transpose, Mat2.zero, Mat2.mk.injEq]
    refine ⟨by ring, by ring, by ring, by ring⟩

/-- C9 witness input: zero covariance. -/
def kfC9w : KfState := ⟨⟨1, 2⟩, Mat2.zero, ⟨0, 0⟩, ⟨0, 0⟩, 0, 0, 0⟩

theorem claim_C9_witness : (kfC9w.predictCov 1).stateCovariance = Mat2.zero :=
  (claim_C9_predictCov_no_noise 1 2 kfC9w).2.2.1 rfl

/-!
Initialization gating and source priority (C3), bias freezing (C7),
timeout state machine (C8).
-/

/-- Concrete observation set for the C3 counterexample. -/
def obsC3 : ObsSet := ⟨⟨1, 2, 3⟩, ⟨4, 5, 6⟩, ⟨7, 8, 9⟩, ⟨10, 11, 12⟩⟩

/-- C3 is false as stated: in a cycle where only the UWB position
source is valid (mask = FUSE_UWB, a valid position source per the
claim), the availability gate taken from the source header does not
count UWB, so the estimator stays entirely uninitialized even though a
position source is valid. -/
theorem claim_C3_counterexample :
    hasNewNonGpsPositionSensorData FUSE_UWB = true ∧
    hasNewPositionSensorData FUSE_UWB = false ∧
    initStep FUSE_UWB obsC3 ⟨false, none, none, none⟩ = ⟨false, none, none, none⟩ := by
  refine ⟨by decide, by decide, ?_⟩
  rfl

/-- C3 amended: when no axis filter is yet initialized, initialization
succeeds exactly when mission position, target GNSS position, or
vision data is valid this cycle (UWB alone does not initialize, since
the availability gate of the source header omits it); on success the
initial position comes from the highest-priority valid source in the
order mission, target GNSS, vision (UWB last in the selector), and all
three axis filters are seeded in one atomic step; otherwise the
estimator state is entirely unchanged. -/
theorem claim_C3_amended_init (mask : Nat) (obs : ObsSet) (est : VtePosEstimator)
    (h : est.estimatorInit = false) :
    (initStep mask obs est).estimatorInit = hasNewPositionSensorData mask ∧
    (hasNewPositionSensorData mask = true →
      initStep mask obs est =
        ⟨true, some (getPosInit mask obs).x, some (getPosInit mask obs).y,
          some (getPosInit mask obs).z⟩) ∧
    (hasNewPositionSensorData mask = false → initStep mask obs est = est) ∧
    (mask &&& FUSE_MISSION_POS ≠ 0 → getPosInit mask obs = obs.missionPos) ∧
    (mask &&& FUSE_MISSION_POS = 0 → mask &&& FUSE_TARGET_GPS_POS ≠ 0 →
      getPosInit mask obs = obs.targetGpsPos) ∧
    (mask &&& FUSE_MISSION_POS = 0 → mask &&& FUSE_TARGET_GPS_POS = 0 →
      mask &&& FUSE_EXT_VIS_POS ≠ 0 → getPosInit mask obs = obs.visionPos) ∧
    (mask &&& FUSE_MISSION_POS = 0 → mask &&& FUSE_TARGET_GPS_POS = 0 →
      mask &&& FUSE_EXT_VIS_POS = 0 → mask &&& FUSE_UWB ≠ 0 →
      getPosInit mask obs = obs.uwbPos) := by
  refine ⟨?_, ?_, ?_, ?_, ?_, ?_, ?_⟩
  · cases hb : hasNewPositionSensorData mask <;> simp [initStep, h, hb]
  · intro hb; simp [initStep, h, hb]
  · intro hb; simp [initStep, h, hb]
  · intro hm; simp [getPosInit, hm]
  · intro hm ht; simp [getPosInit, hm, ht]
  · intro hm ht hv; simp [getPosInit, hm, ht, hv]
  · intro hm ht hv hu; simp [getPosInit, hm, ht, hv, hu]

/-- Concrete observation set for the C3 witness. -/
def obsC3w : ObsSet := ⟨⟨1, 2, 3⟩, ⟨4, 5, 6⟩, ⟨7, 8, 9⟩, ⟨10, 11, 12⟩⟩

theorem claim_C3_witness :
    initStep (FUSE_TARGET_GPS_POS ||| FUSE_EXT_VIS_POS) obsC3w ⟨false, none, none, none⟩ =
      ⟨true, some (getPosInit (FUSE_TARGET_GPS_POS ||| FUSE_EXT_VIS_POS) obsC3w).x,
        some (getPosInit (FUSE_TARGET_GPS_POS ||| FUSE_EXT_VIS_POS) obsC3w).y,
        some (getPosInit (FUSE_TARGET_GPS_POS ||| FUSE_EXT_VIS_POS) obsC3w).z⟩ :=
  (claim_C3_amended_init (FUSE_TARGET_GPS_POS ||| FUSE_EXT_VIS_POS) obsC3w
    ⟨false, none, none, none⟩ rfl).2.1 (by decide)

/-- C7: the bias state is frozen at its last value in every cycle where
the GNSS relative position measurement is not fresh or no non-GNSS
(vision or UWB) position source is valid; it can only change when both
are simultaneously available, and the gate _should_set_bias is exactly
the conjunction of the freshness check and the vision-or-UWB
availability check. -/
theorem claim_C7_bias_frozen (now ts mask : Nat) (cand bias : Vec3) :
    (¬(isMeasValid now ts = true ∧ hasNewNonGpsPositionSensorData mask = true) →
      updateBiasStep now ts mask cand bias = bias) ∧
    (updateBiasStep now ts mask cand bias ≠ bias →
      isMeasValid now ts = true ∧ hasNewNonGpsPositionSensorData mask = true) ∧
    shouldSetBias now ts mask =
      (isMeasValid now ts && hasNewNonGpsPositionSensorData mask) := by
  have hfreeze : ¬(isMeasValid now ts = true ∧ hasNewNonGpsPositionSensorData mask = true) →
      updateBiasStep now ts mask cand bias = bias := by
    intro hn
    have hs : shouldSetBias now ts mask = false := by
      unfold shouldSetBias
      cases hA : isMeasValid now ts <;> cases hB : hasNewNonGpsPositionSensorData mask <;>
        simp_all
    simp [updateBiasStep, hs]
  refine ⟨hfreeze, ?_, rfl⟩
  intro hne
  by_contra hn
  exact hne (hfreeze hn)

theorem claim_C7_witness :
    updateBiasStep 5000000 0 FUSE_EXT_VIS_POS ⟨1, 2, 3⟩ ⟨0, 0, 0⟩ = ⟨0, 0, 0⟩ :=
  (claim_C7_bias_frozen 5000000 0 FUSE_EXT_VIS_POS ⟨1, 2, 3⟩ ⟨0, 0, 0⟩).1 (by decide)

theorem checkTimeout_keeps (t now : Nat) (st : TimeoutState)
    (h : st.hasTimedOut = true) : (checkTimeout t now st).hasTimedOut = true := by
  unfold checkTimeout
  split <;> simp [h]

theorem cycleStep_keeps (t : Nat) (st : TimeoutState) (c : Nat × Bool)
    (h : st.hasTimedOut = true) : (cycleStep t st c).hasTimedOut = true := by
  unfold cycleStep
  apply checkTimeout_keeps
  by_cases hb : c.2 <;> simp [hb, h]

/-- C8: the timeout check marks the estimator timed out exactly when it
already was or the elapsed time since the last successful update
exceeds the configured horizon; once set, the flag survives every
subsequent cycle unchanged (the cycle never clears it) and is cleared
only by the explicit external reset. -/
theorem claim_C8_timeout_terminal (t now : Nat) (st : TimeoutState) (l : List (Nat × Bool)) :
    ((checkTimeout t now st).has_timed_out = true ↔
      (st.hasTimedOut = true ∨ elapsedUs now st.lastUpdate > t)) ∧
    (st.hasTimedOut = true → (runCycles t l st).has_timed_out = true) ∧
    (resetFilterTimeout now).has_timed_out = false := by
  refine ⟨?_, ?_, rfl⟩
  · unfold checkTimeout TimeoutState.has_timed_out
    by_cases hc : elapsedUs now st.lastUpdate > t
    · simp [hc]
    · simp [hc]
  · intro h
    induction l generalizing st with
    | nil => exact h
    | cons c tcs ih =>
        have hstep : (cycleStep t st c).hasTimedOut = true := cycleStep_keeps t st c h
        exact ih (cycleStep t st c) hstep

theorem claim_C8_witness :
    (runCycles 3000000 [(5000000, false), (6000000, true)] ⟨0, true⟩).has_timed_out = true :=
  (claim_C8_timeout_terminal 3000000 5000000 ⟨0, true⟩ [(5000000, false), (6000000, true)]).2.1 rfl
